import Mathlib

/-!
# SrcUbo: region/element uniform-buffer layout

A shallow embedding of `src/core/buffer/uniform/src3_ubo.h` (class template
`src3::SrcUbo<T>`): the layout computation `getAlignment` /
`calculateAlignmentAndRegionSize`, the constructor, and the accessors `get`,
`write`, `flushRegion`, `flushRange`, `flushElement`, `bufferInfoForRegion`,
`bufferInfoForElement`.

Integer model.
* `int` members and parameters are `Int`, in the range of a 32-bit `int`.
  Signed arithmetic (`*`, `+`, `-` on `int`) wraps modulo `2 ^ 32` in two's
  complement (`intMul`, `intAdd`, `intSub`): signed overflow is undefined
  behaviour in C++, and wrapping is what the compiled code does.
* `VkDeviceSize` is `uint64_t`: a `Nat`, with every operation reduced modulo
  `2 ^ 64` (`+`, `-`, `~`, `std::lcm`).
* The implicit conversions are explicit: `toDeviceSize` (`int` to
  `VkDeviceSize`, modulo `2 ^ 64`) and `toInt` (`VkDeviceSize` to `int`, the
  value modulo `2 ^ 32` read as two's complement).
* `assert` is modelled as enabled (a debug build): a failed assertion ends the
  call with `Outcome.assertFailed`.
-/

namespace src3

/-! ## Machine integers -/

/-- Implicit conversion `int` to `VkDeviceSize` (`uint64_t`): the value modulo `2 ^ 64`. -/
def toDeviceSize (z : Int) : Nat := (z % (2 ^ 64 : Int)).toNat

/-- Implicit conversion `VkDeviceSize` to `int`: the low 32 bits, read as two's complement. -/
def toInt (v : Nat) : Int := ((v : Int) + 2 ^ 31) % 2 ^ 32 - 2 ^ 31

/-- The value of an `int` whose exact mathematical value is `z`: the low 32 bits, read as
two's complement. -/
def wrapInt (z : Int) : Int := (z + 2 ^ 31) % 2 ^ 32 - 2 ^ 31

/-- Multiplication `a * b` at type `int`. -/
def intMul (a b : Int) : Int := wrapInt (a * b)

/-- Addition `a + b` at type `int`. -/
def intAdd (a b : Int) : Int := wrapInt (a + b)

/-- Subtraction `a - b` at type `int`. -/
def intSub (a b : Int) : Int := wrapInt (a - b)

/-- The exact value `z` is representable as an `int`. -/
def FitsInt (z : Int) : Prop := -(2 ^ 31 : Int) ≤ z ∧ z < 2 ^ 31

instance (z : Int) : Decidable (FitsInt z) := by
  unfold FitsInt; infer_instance

/-- Bitwise complement `~v` of a `uint64_t`. -/
def bitNot64 (v : Nat) : Nat := 2 ^ 64 - 1 - v % 2 ^ 64

/-- The function `std::lcm` of `<numeric>` at type `uint64_t`: zero when either argument is
zero, otherwise `m / gcd(m, n) * n` in 64-bit arithmetic. -/
def std_lcm (m n : Nat) : Nat :=
  if m = 0 ∨ n = 0 then 0 else (m / Nat.gcd m n * n) % 2 ^ 64

/-! ## Collaborators -/

/-- The two device limits that `SrcUbo` reads from `srcDevice.properties.limits`. -/
structure SrcDevice where
  nonCoherentAtomSize : Nat
  minUniformBufferOffsetAlignment : Nat
deriving DecidableEq, Repr

/-- Result of a call: a value, a failed `assert`, or an access outside the mapped memory. -/
inductive Outcome (α : Type) where
  | ok : α → Outcome α
  | assertFailed : Outcome α
  | memoryFault : Outcome α
deriving DecidableEq, Repr

/-- A byte range `(size, offset)` handed to the underlying buffer (`flush`, `descriptorInfo`):
the values of the two argument expressions at the call site. -/
structure ByteRange where
  size : Int
  offset : Int
deriving DecidableEq, Repr

/-- Modelled from the spec: `SrcBuffer` (`core/buffer/src3_buffer.h`, the spec's
`LinearDeviceBuffer`), a linear allocation of `bufferSize` bytes; `mapped` is the mapped
memory (`getMappedMemory()`), `none` while the buffer is not mapped. -/
structure SrcBuffer where
  bufferSize : Nat
  mapped : Option (List UInt8)
deriving DecidableEq, Repr

/-- Modelled from the spec: `SrcBuffer::map()` maps the whole allocation. -/
def SrcBuffer.map (b : SrcBuffer) : SrcBuffer :=
  { b with mapped := some (List.replicate b.bufferSize 0) }

/-- Modelled from the spec: `SrcBuffer::writeToBuffer(data, size, offset)` copies `size`
bytes of `data` into the mapped memory at `offset`; the caller guarantees
`offset + size <= totalSize`, anything else is an access outside the allocation. -/
def SrcBuffer.writeToBuffer (b : SrcBuffer) (data : List UInt8) (size offset : Int) :
    Outcome SrcBuffer :=
  match b.mapped with
  | none => Outcome.memoryFault
  | some mem =>
    if 0 ≤ offset ∧ 0 ≤ size ∧ offset + size ≤ mem.length ∧ size ≤ data.length then
      Outcome.ok { b with mapped := some (mem.take offset.toNat ++ data.take size.toNat
                                        ++ mem.drop (offset.toNat + size.toNat)) }
    else Outcome.memoryFault

/-- Modelled from the spec: `SrcBuffer::flush(size, offset)`; the embedding records the range. -/
def SrcBuffer.flush (_b : SrcBuffer) (size offset : Int) : ByteRange := ⟨size, offset⟩

/-- Modelled from the spec: `SrcBuffer::descriptorInfo(size, offset)` yields the
`VkDescriptorBufferInfo` of the range. -/
def SrcBuffer.descriptorInfo (_b : SrcBuffer) (size offset : Int) : ByteRange := ⟨size, offset⟩

/-- Typed view `*static_cast<T *>(mapped + offset)`: the `size` bytes at `offset`. -/
def readAt (mem : List UInt8) (size offset : Int) : Outcome (List UInt8) :=
  if 0 ≤ offset ∧ 0 ≤ size ∧ offset + size ≤ mem.length then
    Outcome.ok ((mem.drop offset.toNat).take size.toNat)
  else Outcome.memoryFault

/-! ## The class `SrcUbo<T>` -/

/-- The data members of `SrcUbo<T>`; a value of `T` is its `sizeof(T)` bytes. -/
structure SrcUbo where
  buffer : SrcBuffer
  srcDevice : SrcDevice
  numRegions : Int
  regionSize : Int
  instancesPerRegion : Int
  alignmentPerInstance : Int
  instanceSize : Int
  flushablePerElement : Bool
  descriptorInfoPerElement : Bool
deriving DecidableEq, Repr

/-- `SrcUbo::getAlignment`:
`if (a > 0) return (s + a - 1) & ~(a - 1); return s;` on `VkDeviceSize`. -/
def getAlignment (instanceSize minOffsetAlignment : Nat) : Nat :=
  if minOffsetAlignment > 0 then
    ((instanceSize + minOffsetAlignment - 1) % 2 ^ 64) &&& bitNot64 (minOffsetAlignment - 1)
  else instanceSize

/-- `SrcUbo::calculateAlignmentAndRegionSize`. -/
def calculateAlignmentAndRegionSize (u : SrcUbo) : SrcUbo :=
  let nonCoherentAtomSize := u.srcDevice.nonCoherentAtomSize
  let minUniformBufferOffsetAlignment := u.srcDevice.minUniformBufferOffsetAlignment
  let alignmentPerInstance : Int :=
    if u.flushablePerElement && u.descriptorInfoPerElement then
      toInt (getAlignment (toDeviceSize u.instanceSize)
        (std_lcm nonCoherentAtomSize minUniformBufferOffsetAlignment))
    else if u.flushablePerElement && !u.descriptorInfoPerElement then
      toInt (getAlignment (toDeviceSize u.instanceSize) nonCoherentAtomSize)
    else if !u.flushablePerElement && u.descriptorInfoPerElement then
      toInt (getAlignment (toDeviceSize u.instanceSize) minUniformBufferOffsetAlignment)
    else u.instanceSize
  let regionSize : Int := intMul u.instancesPerRegion alignmentPerInstance
  let regionSize : Int :=
    toInt (getAlignment (toDeviceSize regionSize)
      (std_lcm nonCoherentAtomSize minUniformBufferOffsetAlignment))
  { u with alignmentPerInstance := alignmentPerInstance, regionSize := regionSize }

/-- The constructor `SrcUbo(device, instancesPerRegion, flushablePerElement,
descriptorInfoPerElement, numRegions)` for a payload type of `sizeofT` bytes: it sets the
members, computes the layout and creates and maps a buffer of `regionSize * numRegions`
bytes. -/
def SrcUbo.new (sizeofT : Nat) (device : SrcDevice) (instancesPerRegion : Int)
    (flushablePerElement descriptorInfoPerElement : Bool) (numRegions : Int) : SrcUbo :=
  let u : SrcUbo :=
    { buffer := ⟨0, none⟩
      srcDevice := device
      numRegions := numRegions
      regionSize := 0
      instancesPerRegion := instancesPerRegion
      alignmentPerInstance := 0
      instanceSize := toInt sizeofT
      flushablePerElement := flushablePerElement
      descriptorInfoPerElement := descriptorInfoPerElement }
  let u := calculateAlignmentAndRegionSize u
  { u with buffer := SrcBuffer.map ⟨toDeviceSize (intMul u.regionSize u.numRegions), none⟩ }

/-- `SrcUbo::get(frameIndex, elementIndex)`. -/
def SrcUbo.get (u : SrcUbo) (frameIndex : Int) (elementIndex : Int) :
    Outcome (List UInt8) :=
  if ¬ frameIndex < u.numRegions then Outcome.assertFailed
  else if ¬ elementIndex < u.instancesPerRegion then Outcome.assertFailed
  else
    match u.buffer.mapped with
    | none => Outcome.assertFailed
    | some mapped =>
      let offset : Int :=
        intAdd (intMul frameIndex u.regionSize) (intMul elementIndex u.alignmentPerInstance)
      readAt mapped u.instanceSize offset

/-- `SrcUbo::write(item, frameIndex, elementIndex)`. -/
def SrcUbo.write (u : SrcUbo) (item : List UInt8) (frameIndex : Int) (elementIndex : Int) :
    Outcome SrcUbo :=
  if ¬ frameIndex < u.numRegions then Outcome.assertFailed
  else if ¬ elementIndex < u.instancesPerRegion then Outcome.assertFailed
  else
    match u.buffer.writeToBuffer item u.instanceSize
        (intAdd (intMul frameIndex u.regionSize)
          (intMul elementIndex u.alignmentPerInstance)) with
    | Outcome.ok b => Outcome.ok { u with buffer := b }
    | Outcome.assertFailed => Outcome.assertFailed
    | Outcome.memoryFault => Outcome.memoryFault

/-- `SrcUbo::flushRegion(frameIndex)`. -/
def SrcUbo.flushRegion (u : SrcUbo) (frameIndex : Int) : Outcome ByteRange :=
  if ¬ frameIndex < u.numRegions then Outcome.assertFailed
  else Outcome.ok (u.buffer.flush u.regionSize (intMul u.regionSize frameIndex))

/-- `SrcUbo::flushRange(frameIndex, elementStart, elementEnd)`. -/
def SrcUbo.flushRange (u : SrcUbo) (frameIndex elementStart elementEnd : Int) :
    Outcome ByteRange :=
  if ¬ frameIndex < u.numRegions then Outcome.assertFailed
  else if ¬ elementStart < u.instancesPerRegion then Outcome.assertFailed
  else if ¬ elementEnd < u.instancesPerRegion then Outcome.assertFailed
  else if ¬ elementStart < elementEnd then Outcome.assertFailed
  else if ¬ u.flushablePerElement then Outcome.assertFailed
  else Outcome.ok (u.buffer.flush
    (intMul u.alignmentPerInstance (intSub elementEnd elementStart))
    (intAdd (intMul frameIndex u.regionSize) (intMul u.alignmentPerInstance elementStart)))

/-- `SrcUbo::flushElement(frameIndex, elementIndex)`. -/
def SrcUbo.flushElement (u : SrcUbo) (frameIndex elementIndex : Int) : Outcome ByteRange :=
  if ¬ frameIndex < u.numRegions then Outcome.assertFailed
  else if ¬ elementIndex < u.instancesPerRegion then Outcome.assertFailed
  else if ¬ u.flushablePerElement then Outcome.assertFailed
  else Outcome.ok (u.buffer.flush
    u.alignmentPerInstance
    (intAdd (intMul frameIndex u.regionSize) (intMul u.alignmentPerInstance elementIndex)))

/-- `SrcUbo::bufferInfoForRegion(frameIndex)`. -/
def SrcUbo.bufferInfoForRegion (u : SrcUbo) (frameIndex : Int) : Outcome ByteRange :=
  if ¬ frameIndex < u.numRegions then Outcome.assertFailed
  else Outcome.ok (u.buffer.descriptorInfo u.regionSize (intMul u.regionSize frameIndex))

/-- `SrcUbo::bufferInfoForElement(frameIndex, elementIndex)`. -/
def SrcUbo.bufferInfoForElement (u : SrcUbo) (frameIndex elementIndex : Int) :
    Outcome ByteRange :=
  if ¬ frameIndex < u.numRegions then Outcome.assertFailed
  else if ¬ elementIndex < u.instancesPerRegion then Outcome.assertFailed
  else if ¬ u.descriptorInfoPerElement then Outcome.assertFailed
  else Outcome.ok (u.buffer.descriptorInfo
    u.alignmentPerInstance
    (intAdd (intMul frameIndex u.regionSize) (intMul elementIndex u.alignmentPerInstance)))

/-! ## Absence of wrap-around -/

/-- The alignment argument of the `getAlignment` call that computes `alignmentPerInstance`,
as selected by the two flags; `none` when both flags are false and no call is made. -/
def elementAlign (u : SrcUbo) : Option Nat :=
  if u.flushablePerElement && u.descriptorInfoPerElement then
    some (std_lcm u.srcDevice.nonCoherentAtomSize u.srcDevice.minUniformBufferOffsetAlignment)
  else if u.flushablePerElement && !u.descriptorInfoPerElement then
    some u.srcDevice.nonCoherentAtomSize
  else if !u.flushablePerElement && u.descriptorInfoPerElement then
    some u.srcDevice.minUniformBufferOffsetAlignment
  else none

/-- The call `getAlignment(z, a)` with an `int` argument `z` and an `int` destination is free of
wrap-around: `z` converts to `VkDeviceSize` unchanged, `z + a - 1` stays below `2 ^ 64`, and the
result converts back to `int` unchanged. -/
def ExactAlign (z : Int) (a : Nat) : Prop :=
  0 ≤ z ∧ z < 2 ^ 64 ∧ (0 < a → z.toNat + a - 1 < 2 ^ 64) ∧ getAlignment z.toNat a < 2 ^ 31

/-- No arithmetic step of `calculateAlignmentAndRegionSize` wraps around: `std::lcm` is
representable, both `getAlignment` calls are exact, and the `int` product
`instancesPerRegion * alignmentPerInstance` is in the range of `int`. -/
def NoWrap (u : SrcUbo) : Prop :=
  Nat.lcm u.srcDevice.nonCoherentAtomSize u.srcDevice.minUniformBufferOffsetAlignment < 2 ^ 64 ∧
  (∀ a ∈ elementAlign u, ExactAlign u.instanceSize a) ∧
  -(2 ^ 31 : Int) ≤ u.instancesPerRegion * (calculateAlignmentAndRegionSize u).alignmentPerInstance ∧
  u.instancesPerRegion * (calculateAlignmentAndRegionSize u).alignmentPerInstance < 2 ^ 31 ∧
  ExactAlign (u.instancesPerRegion * (calculateAlignmentAndRegionSize u).alignmentPerInstance)
    (std_lcm u.srcDevice.nonCoherentAtomSize u.srcDevice.minUniformBufferOffsetAlignment)

/-- The state that the constructor establishes: the layout members hold the values computed by
`calculateAlignmentAndRegionSize`, and the buffer is mapped as an array of
`regionSize * numRegions` bytes, the size being the `int` product converted to
`VkDeviceSize` as in the constructor. -/
def Constructed (u : SrcUbo) : Prop :=
  calculateAlignmentAndRegionSize u = u ∧
  ∃ mem, u.buffer.mapped = some mem ∧
    mem.length = toDeviceSize (intMul u.regionSize u.numRegions)

/-- Reference definition, in the spec's words: `m` is the smallest multiple of `align` that
is `>= size`. -/
def IsLeastMultiple (align size m : Int) : Prop :=
  align ∣ m ∧ size ≤ m ∧ ∀ m', align ∣ m' → size ≤ m' → m ≤ m'

instance (z : Int) (a : Nat) : Decidable (ExactAlign z a) := by
  unfold ExactAlign; infer_instance

instance (u : SrcUbo) : Decidable (NoWrap u) := by
  unfold NoWrap; infer_instance

/-! ## Sample buffers -/

/-- A small buffer: 4-byte payload, limits 4 and 8, two regions of two elements, both
per-element capabilities. -/
def smallUbo : SrcUbo := SrcUbo.new 4 ⟨4, 8⟩ 2 true true 2

/-- The input members of the spec's concrete scenario: 16-byte payload, limits 64 and 256,
four instances per region, both flags as given. -/
def scenarioInput (flushablePerElement descriptorInfoPerElement : Bool) : SrcUbo :=
  { buffer := ⟨0, none⟩
    srcDevice := ⟨64, 256⟩
    numRegions := 2
    regionSize := 0
    instancesPerRegion := 4
    alignmentPerInstance := 0
    instanceSize := 16
    flushablePerElement := flushablePerElement
    descriptorInfoPerElement := descriptorInfoPerElement }

/-! ## Bit-level lemmas -/

theorem and_compl_add_and (w x m : Nat) (hx : x < 2 ^ w) (hm : m < 2 ^ w) :
    (x &&& (2 ^ w - 1 - m)) + (x &&& m) = x := by
  have h2 : 2 ^ w - 1 - m = 2 ^ w - (m + 1) := by omega
  have hdisj : (x &&& (2 ^ w - 1 - m)) &&& (x &&& m) = 0 := by
    apply Nat.eq_of_testBit_eq
    intro i
    rw [h2]
    simp only [Nat.testBit_and, Nat.testBit_two_pow_sub_succ hm, Nat.zero_testBit]
    cases x.testBit i <;> cases m.testBit i <;> simp
  have hor : (x &&& (2 ^ w - 1 - m)) ||| (x &&& m) = x := by
    apply Nat.eq_of_testBit_eq
    intro i
    rw [h2]
    simp only [Nat.testBit_or, Nat.testBit_and, Nat.testBit_two_pow_sub_succ hm]
    by_cases hi : i < w
    · cases x.testBit i <;> cases m.testBit i <;> simp [hi]
    · have hxi : x.testBit i = false :=
        Nat.testBit_lt_two_pow
          (lt_of_lt_of_le hx (Nat.pow_le_pow_right (by norm_num) (by omega)))
      simp [hxi]
  have hlt : 2 ^ w < 2 ^ (w + 1) := Nat.pow_lt_pow_right (by norm_num) (by omega)
  have h1 : x &&& (2 ^ w - 1 - m) ≤ x := Nat.and_le_left
  have h3 : x &&& m ≤ x := Nat.and_le_left
  have ha : x &&& (2 ^ w - 1 - m) < 2 ^ (w + 1) := by omega
  have hb : x &&& m < 2 ^ (w + 1) := by omega
  have key := BitVec.add_eq_or_of_and_eq_zero
    (BitVec.ofNat (w + 1) (x &&& (2 ^ w - 1 - m))) (BitVec.ofNat (w + 1) (x &&& m)) (by
      apply BitVec.eq_of_toNat_eq
      simp only [BitVec.toNat_and, BitVec.toNat_ofNat, Nat.mod_eq_of_lt ha,
        Nat.mod_eq_of_lt hb, hdisj]
      simp)
  have key2 := congrArg BitVec.toNat key
  simp only [BitVec.toNat_add, BitVec.toNat_or, BitVec.toNat_ofNat, Nat.mod_eq_of_lt ha,
    Nat.mod_eq_of_lt hb, hor] at key2
  have hsum : (x &&& (2 ^ w - 1 - m)) + (x &&& m) < 2 ^ (w + 1) := by
    rw [pow_succ]; omega
  rw [Nat.mod_eq_of_lt hsum] at key2
  exact key2

theorem and_compl_pow (w k x : Nat) (hk : k ≤ w) (hx : x < 2 ^ w) :
    x &&& (2 ^ w - 1 - (2 ^ k - 1)) = x / 2 ^ k * 2 ^ k := by
  have hm : 2 ^ k - 1 < 2 ^ w := by
    have h1 := Nat.pow_le_pow_right (show 0 < 2 by norm_num) hk
    have h2 := Nat.two_pow_pos k
    omega
  have h := and_compl_add_and w x (2 ^ k - 1) hx hm
  rw [Nat.and_pow_two_sub_one_eq_mod] at h
  have h3 := Nat.div_add_mod' x (2 ^ k)
  omega

/-! ## `getAlignment` -/

theorem getAlignment_zero (s : Nat) : getAlignment s 0 = s := by
  simp [getAlignment]

/-- Without wrap-around the result of `getAlignment` lies between `s` and `s + a - 1`. -/
theorem getAlignment_bounds (s a : Nat) (ha : 0 < a) (hs : s + a - 1 < 2 ^ 64) :
    s ≤ getAlignment s a ∧ getAlignment s a ≤ s + a - 1 := by
  have ha1 : a - 1 < 2 ^ 64 := by omega
  have hsum := and_compl_add_and 64 (s + a - 1) (a - 1) hs ha1
  have hle : (s + a - 1) &&& (a - 1) ≤ a - 1 := Nat.and_le_right
  have hle2 : (s + a - 1) &&& (2 ^ 64 - 1 - (a - 1)) ≤ s + a - 1 := Nat.and_le_left
  unfold getAlignment bitNot64
  rw [if_pos ha, Nat.mod_eq_of_lt hs, Nat.mod_eq_of_lt ha1]
  omega

/-- Whenever the call is free of wrap-around, `getAlignment(s, a) >= s`. -/
theorem getAlignment_ge (s a : Nat) (hs : 0 < a → s + a - 1 < 2 ^ 64) :
    s ≤ getAlignment s a := by
  rcases Nat.eq_zero_or_pos a with h | h
  · subst h; rw [getAlignment_zero]
  · exact (getAlignment_bounds s a h (hs h)).1

/-- For a power of two `2 ^ k` that fits in 64 bits the mask clears the low `k` bits. -/
theorem getAlignment_two_pow (s k : Nat) (hk : k < 64) :
    getAlignment s (2 ^ k) = (s + 2 ^ k - 1) % 2 ^ 64 / 2 ^ k * 2 ^ k := by
  have hpos := Nat.two_pow_pos k
  have hlt : 2 ^ k < 2 ^ 64 := Nat.pow_lt_pow_right (by norm_num) hk
  unfold getAlignment bitNot64
  rw [if_pos hpos, Nat.mod_eq_of_lt (by omega : 2 ^ k - 1 < 2 ^ 64)]
  exact and_compl_pow 64 k _ (by omega) (Nat.mod_lt _ (by norm_num))

theorem getAlignment_two_pow_dvd (s k : Nat) (hk : k < 64) :
    2 ^ k ∣ getAlignment s (2 ^ k) := by
  rw [getAlignment_two_pow s k hk]
  exact Dvd.intro_left _ rfl

/-! ## Conversions -/

theorem toDeviceSize_of_nonneg (z : Int) (h0 : 0 ≤ z) (h1 : z < 2 ^ 64) :
    toDeviceSize z = z.toNat := by
  unfold toDeviceSize
  rw [Int.emod_eq_of_lt h0 h1]

theorem toInt_of_lt (v : Nat) (h : v < 2 ^ 31) : toInt v = (v : Int) := by
  unfold toInt
  have h1 : (0 : Int) ≤ (v : Int) + 2 ^ 31 := by positivity
  have h2 : (v : Int) + 2 ^ 31 < 2 ^ 32 := by
    have : (v : Int) < 2 ^ 31 := by exact_mod_cast h
    linarith
  rw [Int.emod_eq_of_lt h1 h2]
  ring

/-- An `int` result that is representable is the exact value. -/
theorem wrapInt_of_fits (z : Int) (h : FitsInt z) : wrapInt z = z := by
  obtain ⟨h1, h2⟩ := h
  unfold wrapInt
  rw [Int.emod_eq_of_lt (by linarith) (by linarith)]
  ring

theorem intMul_of_fits (a b : Int) (h : FitsInt (a * b)) : intMul a b = a * b :=
  wrapInt_of_fits _ h

theorem intAdd_of_fits (a b : Int) (h : FitsInt (a + b)) : intAdd a b = a + b :=
  wrapInt_of_fits _ h

theorem intSub_of_fits (a b : Int) (h : FitsInt (a - b)) : intSub a b = a - b :=
  wrapInt_of_fits _ h

/-- Wrapping to `int` keeps divisibility by a power of two. -/
theorem wrapInt_dvd (k : Nat) (z : Int) (h : ((2 ^ k : Nat) : Int) ∣ z) :
    ((2 ^ k : Nat) : Int) ∣ wrapInt z := by
  have hq : wrapInt z = z - 2 ^ 32 * ((z + 2 ^ 31) / 2 ^ 32) := by
    unfold wrapInt
    rw [Int.emod_def]; ring
  rcases Nat.lt_or_ge k 33 with hk | hk
  · rw [hq]
    apply dvd_sub h
    apply Dvd.dvd.mul_right
    have h2 : (2 : Int) ^ k ∣ 2 ^ 32 := pow_dvd_pow 2 (by omega)
    exact_mod_cast h2
  · have h32 : ((2 ^ 32 : Nat) : Int) ∣ z :=
      dvd_trans (by exact_mod_cast pow_dvd_pow 2 (by omega : 32 ≤ k)) h
    obtain ⟨w, rfl⟩ := h32
    have h0 : wrapInt (((2 ^ 32 : Nat) : Int) * w) = 0 := by
      unfold wrapInt
      push_cast
      omega
    rw [h0]
    exact dvd_zero _

/-- An exact `getAlignment` call returns, as an `int`, the `VkDeviceSize` result itself. -/
theorem exactAlign_eq (z : Int) (a : Nat) (h : ExactAlign z a) :
    toInt (getAlignment (toDeviceSize z) a) = (getAlignment z.toNat a : Int) := by
  obtain ⟨h0, h1, _, h3⟩ := h
  rw [toDeviceSize_of_nonneg z h0 h1, toInt_of_lt _ h3]

/-- An exact `getAlignment` call never returns less than its first argument. -/
theorem exactAlign_ge (z : Int) (a : Nat) (h : ExactAlign z a) :
    z ≤ toInt (getAlignment (toDeviceSize z) a) := by
  rw [exactAlign_eq z a h]
  obtain ⟨h0, _, h2, _⟩ := h
  have hge := getAlignment_ge z.toNat a h2
  have : (z.toNat : Int) ≤ (getAlignment z.toNat a : Int) := by exact_mod_cast hge
  have hz : (z.toNat : Int) = z := Int.toNat_of_nonneg h0
  linarith

/-! ## The computed layout -/

theorem alignmentPerInstance_eq (u : SrcUbo) :
    (calculateAlignmentAndRegionSize u).alignmentPerInstance =
      match elementAlign u with
      | some a => toInt (getAlignment (toDeviceSize u.instanceSize) a)
      | none => u.instanceSize := by
  cases hf : u.flushablePerElement <;> cases hd : u.descriptorInfoPerElement <;>
    simp [calculateAlignmentAndRegionSize, elementAlign, hf, hd]

theorem regionSize_eq (u : SrcUbo) :
    (calculateAlignmentAndRegionSize u).regionSize =
      toInt (getAlignment
        (toDeviceSize (intMul u.instancesPerRegion
          (calculateAlignmentAndRegionSize u).alignmentPerInstance))
        (std_lcm u.srcDevice.nonCoherentAtomSize
          u.srcDevice.minUniformBufferOffsetAlignment)) := by
  simp only [calculateAlignmentAndRegionSize]

theorem calculate_fields (u : SrcUbo) :
    (calculateAlignmentAndRegionSize u).instanceSize = u.instanceSize ∧
    (calculateAlignmentAndRegionSize u).instancesPerRegion = u.instancesPerRegion ∧
    (calculateAlignmentAndRegionSize u).numRegions = u.numRegions ∧
    (calculateAlignmentAndRegionSize u).flushablePerElement = u.flushablePerElement ∧
    (calculateAlignmentAndRegionSize u).descriptorInfoPerElement = u.descriptorInfoPerElement ∧
    (calculateAlignmentAndRegionSize u).srcDevice = u.srcDevice ∧
    (calculateAlignmentAndRegionSize u).buffer = u.buffer := by
  simp [calculateAlignmentAndRegionSize]

/-- Without wrap-around the element stride is at least the payload size. -/
theorem alignmentPerInstance_ge (u : SrcUbo) (hw : NoWrap u) :
    u.instanceSize ≤ (calculateAlignmentAndRegionSize u).alignmentPerInstance := by
  rw [alignmentPerInstance_eq]
  cases h : elementAlign u with
  | none => simp
  | some a => exact exactAlign_ge _ _ (hw.2.1 a h)

/-- Without wrap-around the region stride holds `instancesPerRegion` element strides. -/
theorem regionSize_ge (u : SrcUbo) (hw : NoWrap u) :
    u.instancesPerRegion * (calculateAlignmentAndRegionSize u).alignmentPerInstance ≤
      (calculateAlignmentAndRegionSize u).regionSize := by
  rw [regionSize_eq, intMul_of_fits _ _ ⟨hw.2.2.1, hw.2.2.2.1⟩]
  exact exactAlign_ge _ _ hw.2.2.2.2

/-- The layout of a constructed buffer, read from its own members. -/
theorem constructed_layout (u : SrcUbo) (hc : Constructed u) (hw : NoWrap u) :
    u.instanceSize ≤ u.alignmentPerInstance ∧
    u.instancesPerRegion * u.alignmentPerInstance ≤ u.regionSize := by
  have h1 := alignmentPerInstance_ge u hw
  have h2 := regionSize_ge u hw
  rw [hc.1] at h1 h2
  exact ⟨h1, h2⟩

/-- Element `(r, e)` of a grid with strides `rs` and `api` ends inside region `r`. -/
theorem element_in_region (s api rs n r e : Int) (hs : s ≤ api) (hrs : n * api ≤ rs)
    (hapi : 0 ≤ api) (he : e < n) :
    r * rs + e * api + s ≤ r * rs + e * api + api ∧ r * rs + e * api + api ≤ (r + 1) * rs := by
  constructor
  · linarith
  · have h1 : (e + 1) * api ≤ n * api := mul_le_mul_of_nonneg_right (by omega) hapi
    linarith

/-- Region `r` of `m` regions of stride `rs` ends inside the allocation. -/
theorem region_in_allocation (rs m r : Int) (hrs : 0 ≤ rs) (hr : r < m) :
    (r + 1) * rs ≤ rs * m := by
  have h1 : (r + 1) * rs ≤ m * rs := mul_le_mul_of_nonneg_right (by omega) hrs
  linarith

/-! ## Mapped memory -/

/-- Overwriting `n` bytes at `o` keeps the length and makes those `n` bytes read back. -/
theorem splice_read (mem data : List UInt8) (o n : Nat) (h : o + n ≤ mem.length)
    (hd : data.length = n) :
    (mem.take o ++ data.take n ++ mem.drop (o + n)).length = mem.length ∧
    ((mem.take o ++ data.take n ++ mem.drop (o + n)).drop o).take n = data := by
  have h1 : (mem.take o).length = o := by
    rw [List.length_take]; omega
  have h2 : data.take n = data := by
    rw [← hd]; exact List.take_length data
  constructor
  · simp only [List.length_append, List.length_take, List.length_drop]
    omega
  · rw [h2, List.append_assoc]
    have h3 : (mem.take o ++ (data ++ mem.drop (o + n))).drop o = data ++ mem.drop (o + n) := by
      have h4 := List.drop_left (mem.take o) (data ++ mem.drop (o + n))
      rw [h1] at h4
      exact h4
    rw [h3, ← hd]
    exact List.take_left _ _

/-- The element slot `(r, e)` of a constructed buffer lies inside the mapped array. -/
theorem slot_in_allocation (u : SrcUbo) (hc : Constructed u) (hs : 0 < u.instanceSize)
    (hw : NoWrap u) (r e : Int) (hr0 : 0 ≤ r) (hr : r < u.numRegions)
    (he0 : 0 ≤ e) (he : e < u.instancesPerRegion) :
    0 ≤ r * u.regionSize + e * u.alignmentPerInstance ∧
    r * u.regionSize + e * u.alignmentPerInstance + u.instanceSize ≤
      r * u.regionSize + e * u.alignmentPerInstance + u.alignmentPerInstance ∧
    r * u.regionSize + e * u.alignmentPerInstance + u.alignmentPerInstance ≤
      (r + 1) * u.regionSize ∧
    (r + 1) * u.regionSize ≤ u.regionSize * u.numRegions := by
  obtain ⟨h1, h2⟩ := constructed_layout u hc hw
  have hapi : 0 ≤ u.alignmentPerInstance := by linarith
  have hn : 0 ≤ u.instancesPerRegion := by linarith
  have hrs : 0 ≤ u.regionSize := le_trans (mul_nonneg hn hapi) h2
  have h3 := element_in_region u.instanceSize u.alignmentPerInstance u.regionSize
    u.instancesPerRegion r e h1 h2 hapi he
  have h4 := region_in_allocation u.regionSize u.numRegions r hrs hr
  have h5 : 0 ≤ r * u.regionSize := mul_nonneg hr0 hrs
  have h6 : 0 ≤ e * u.alignmentPerInstance := mul_nonneg he0 hapi
  exact ⟨by linarith, h3.1, h3.2, h4⟩

/-- Both strides of a constructed buffer with at least one instance are not negative. -/
theorem strides_nonneg (u : SrcUbo) (hc : Constructed u) (hs : 0 < u.instanceSize)
    (hw : NoWrap u) (hn : 0 < u.instancesPerRegion) :
    0 ≤ u.alignmentPerInstance ∧ 0 ≤ u.regionSize := by
  obtain ⟨h1, h2⟩ := constructed_layout u hc hw
  have hapi : 0 ≤ u.alignmentPerInstance := by linarith
  exact ⟨hapi, le_trans (mul_nonneg (le_of_lt hn) hapi) h2⟩

/-- The constructor establishes `Constructed`. -/
theorem new_constructed (sizeofT : Nat) (device : SrcDevice) (n : Int) (f d : Bool) (m : Int) :
    Constructed (SrcUbo.new sizeofT device n f d m) := by
  have h2 : (SrcUbo.new sizeofT device n f d m).numRegions = m := by
    simp [SrcUbo.new, calculateAlignmentAndRegionSize]
  have h3 : (SrcUbo.new sizeofT device n f d m).buffer =
      SrcBuffer.map
        ⟨toDeviceSize (intMul (SrcUbo.new sizeofT device n f d m).regionSize m), none⟩ := by
    simp [SrcUbo.new, calculateAlignmentAndRegionSize]
  refine ⟨?_, List.replicate
    (toDeviceSize (intMul (SrcUbo.new sizeofT device n f d m).regionSize m)) 0, ?_, ?_⟩
  · simp [SrcUbo.new, calculateAlignmentAndRegionSize]
  · rw [h3]; simp [SrcBuffer.map]
  · rw [List.length_replicate, h2]

theorem smallUbo_constructed : Constructed smallUbo :=
  new_constructed 4 ⟨4, 8⟩ 2 true true 2

/-- When the buffer size `regionSize * numRegions` is representable and not negative, the
mapped array of a constructed buffer has exactly that many bytes. -/
theorem constructed_length (u : SrcUbo) (mem : List UInt8)
    (hlen : mem.length = toDeviceSize (intMul u.regionSize u.numRegions))
    (h0 : 0 ≤ u.regionSize * u.numRegions) (hfit : u.regionSize * u.numRegions < 2 ^ 31) :
    (mem.length : Int) = u.regionSize * u.numRegions := by
  rw [hlen, intMul_of_fits _ _ ⟨by linarith, hfit⟩,
    toDeviceSize_of_nonneg _ h0 (by linarith)]
  exact Int.toNat_of_nonneg h0

/-- An offset inside a representable allocation is computed without wrap-around. -/
theorem offset_exact (a b c d total : Int) (h1 : 0 ≤ a * b) (h2 : 0 ≤ c * d)
    (h3 : a * b + c * d ≤ total) (hfit : total < 2 ^ 31) :
    intAdd (intMul a b) (intMul c d) = a * b + c * d := by
  rw [intMul_of_fits a b ⟨by linarith, by linarith⟩,
    intMul_of_fits c d ⟨by linarith, by linarith⟩,
    intAdd_of_fits _ _ ⟨by linarith, by linarith⟩]

theorem smallUbo_noWrap : NoWrap smallUbo := by decide

/-! ## `std::lcm` and powers of two -/

theorem std_lcm_eq (m n : Nat) : std_lcm m n = Nat.lcm m n % 2 ^ 64 := by
  unfold std_lcm
  split
  · rename_i h
    rcases h with h | h <;> subst h <;> simp
  · rename_i h
    have hm : 0 < m := Nat.pos_of_ne_zero (fun h0 => h (Or.inl h0))
    have hg : 0 < Nat.gcd m n := Nat.gcd_pos_of_pos_left n hm
    generalize hgd : Nat.gcd m n = g at hg
    obtain ⟨k, hk⟩ : g ∣ m := hgd ▸ Nat.gcd_dvd_left m n
    have h1 : m / g = k := by
      rw [hk]; exact Nat.mul_div_cancel_left k hg
    have h2 : m * n / g = k * n := by
      rw [hk, Nat.mul_assoc]; exact Nat.mul_div_cancel_left (k * n) hg
    rw [Nat.lcm, hgd, h1, h2]

theorem lcm_two_pow (i j : Nat) : Nat.lcm (2 ^ i) (2 ^ j) = 2 ^ max i j := by
  rcases le_total i j with h | h
  · rw [max_eq_right h]
    exact Nat.dvd_antisymm (Nat.lcm_dvd (pow_dvd_pow 2 h) (dvd_refl _))
      (Nat.dvd_lcm_right _ _)
  · rw [max_eq_left h]
    exact Nat.dvd_antisymm (Nat.lcm_dvd (dvd_refl _) (pow_dvd_pow 2 h))
      (Nat.dvd_lcm_left _ _)

theorem std_lcm_two_pow (i j : Nat) (hi : i < 64) (hj : j < 64) :
    std_lcm (2 ^ i) (2 ^ j) = 2 ^ max i j := by
  rw [std_lcm_eq, lcm_two_pow]
  exact Nat.mod_eq_of_lt (Nat.pow_lt_pow_right (by norm_num) (max_lt hi hj))

/-- The conversion to `int` keeps divisibility by a power of two. -/
theorem toInt_dvd (k v : Nat) (h : 2 ^ k ∣ v) : ((2 ^ k : Nat) : Int) ∣ toInt v := by
  have hq : toInt v = (v : Int) - 2 ^ 32 * (((v : Int) + 2 ^ 31) / 2 ^ 32) := by
    unfold toInt
    rw [Int.emod_def]; ring
  rcases Nat.lt_or_ge k 33 with hk | hk
  · rw [hq]
    apply dvd_sub
    · exact_mod_cast h
    · apply Dvd.dvd.mul_right
      have h2 : (2 : Int) ^ k ∣ 2 ^ 32 := pow_dvd_pow 2 (by omega)
      exact_mod_cast h2
  · have h32 : 2 ^ 32 ∣ v := dvd_trans (pow_dvd_pow 2 (by omega)) h
    obtain ⟨w, rfl⟩ := h32
    have h0 : toInt (2 ^ 32 * w) = 0 := by
      unfold toInt
      push_cast
      omega
    rw [h0]
    exact dvd_zero _

/-- A multiple of `d` between `x` and `x + d - 1` is the smallest multiple of `d` above `x`. -/
theorem isLeastMultiple_of_bounds (d x g : Int) (hd : 0 < d) (hdvd : d ∣ g) (h1 : x ≤ g)
    (h2 : g ≤ x + d - 1) : IsLeastMultiple d x g := by
  refine ⟨hdvd, h1, ?_⟩
  intro m hm hxm
  obtain ⟨q, rfl⟩ := hdvd
  obtain ⟨t, rfl⟩ := hm
  have hlt : d * q < d * (t + 1) := by
    have : d * (t + 1) = d * t + d := by ring
    linarith
  have hq : q < t + 1 := lt_of_mul_lt_mul_left hlt (le_of_lt hd)
  exact mul_le_mul_of_nonneg_left (by omega) (le_of_lt hd)

/-- An exact `getAlignment` call with a power-of-two alignment returns the smallest multiple
of the alignment that is at least its first argument. -/
theorem exactAlign_least (z : Int) (k : Nat) (hk : k < 64) (h : ExactAlign z (2 ^ k)) :
    IsLeastMultiple ((2 ^ k : Nat) : Int) z (toInt (getAlignment (toDeviceSize z) (2 ^ k))) := by
  rw [exactAlign_eq z _ h]
  obtain ⟨h0, _, h2, _⟩ := h
  have hpos := Nat.two_pow_pos k
  obtain ⟨b1, b2⟩ := getAlignment_bounds z.toNat (2 ^ k) hpos (h2 hpos)
  have hz : (z.toNat : Int) = z := Int.toNat_of_nonneg h0
  apply isLeastMultiple_of_bounds
  · exact_mod_cast hpos
  · exact_mod_cast getAlignment_two_pow_dvd z.toNat k hk
  · rw [← hz]; exact_mod_cast b1
  · have b3 : (getAlignment z.toNat (2 ^ k) : Int) ≤ ((z.toNat + 2 ^ k - 1 : Nat) : Int) := by
      exact_mod_cast b2
    have b4 : ((z.toNat + 2 ^ k - 1 : Nat) : Int) = (z.toNat : Int) + ((2 ^ k : Nat) : Int) - 1 := by
      omega
    rw [b4, hz] at b3
    exact b3

/-! ## `flushRange` below the last element -/

/-- With `flushablePerElement` set, `flushRange(r, s, e)` with `r < numRegions` and
`s < e < instancesPerRegion` flushes `alignmentPerInstance * (e - s)` bytes at
`r * regionSize + alignmentPerInstance * s`, both computed in `int`; a call with `s >= e`
fails. -/
theorem flushRange_below_last (u : SrcUbo) (r s e : Int) :
    (u.flushablePerElement = true → r < u.numRegions → s < e → e < u.instancesPerRegion →
      u.flushRange r s e = Outcome.ok
        ⟨intMul u.alignmentPerInstance (intSub e s),
         intAdd (intMul r u.regionSize) (intMul u.alignmentPerInstance s)⟩) ∧
    (e ≤ s → u.flushRange r s e = Outcome.assertFailed) := by
  constructor
  · intro hf hr hse he
    have hs : s < u.instancesPerRegion := lt_trans hse he
    unfold SrcUbo.flushRange SrcBuffer.flush
    rw [if_neg (not_not.mpr hr), if_neg (not_not.mpr hs), if_neg (not_not.mpr he),
      if_neg (not_not.mpr hse), if_neg (by simp [hf])]
  · intro h
    have hse : ¬ s < e := not_lt.mpr h
    simp [SrcUbo.flushRange, hse]

/-! ## Divisibility of the strides by power-of-two limits -/

/-- With power-of-two limits the region stride is a multiple of the larger limit. -/
theorem regionSize_dvd_max (u : SrcUbo) (i j : Nat) (hi : i < 64) (hj : j < 64)
    (hc : u.srcDevice.nonCoherentAtomSize = 2 ^ i)
    (ho : u.srcDevice.minUniformBufferOffsetAlignment = 2 ^ j) :
    ((2 ^ max i j : Nat) : Int) ∣ (calculateAlignmentAndRegionSize u).regionSize := by
  rw [regionSize_eq, hc, ho, std_lcm_two_pow i j hi hj]
  exact toInt_dvd _ _ (getAlignment_two_pow_dvd _ _ (max_lt hi hj))

/-- A power of two divides every larger power of two, as integers. -/
theorem two_pow_cast_dvd (a b : Nat) (h : a ≤ b) : ((2 ^ a : Nat) : Int) ∣ ((2 ^ b : Nat) : Int) := by
  exact_mod_cast pow_dvd_pow 2 h

/-- With `flushablePerElement` set and power-of-two limits, the element stride is a multiple
of `nonCoherentAtomSize`. -/
theorem alignmentPerInstance_dvd_atom (u : SrcUbo) (i j : Nat) (hi : i < 64) (hj : j < 64)
    (hc : u.srcDevice.nonCoherentAtomSize = 2 ^ i)
    (ho : u.srcDevice.minUniformBufferOffsetAlignment = 2 ^ j)
    (hf : u.flushablePerElement = true) :
    ((2 ^ i : Nat) : Int) ∣ (calculateAlignmentAndRegionSize u).alignmentPerInstance := by
  rw [alignmentPerInstance_eq]
  cases hd : u.descriptorInfoPerElement
  · have ha : elementAlign u = some (2 ^ i) := by simp [elementAlign, hf, hd, hc]
    rw [ha]
    exact toInt_dvd _ _ (getAlignment_two_pow_dvd _ _ hi)
  · have ha : elementAlign u = some (2 ^ max i j) := by
      simp [elementAlign, hf, hd, hc, ho, std_lcm_two_pow i j hi hj]
    rw [ha]
    exact dvd_trans (two_pow_cast_dvd i (max i j) (le_max_left i j))
      (toInt_dvd _ _ (getAlignment_two_pow_dvd _ _ (max_lt hi hj)))

/-- With `descriptorInfoPerElement` set and power-of-two limits, the element stride is a
multiple of `minUniformBufferOffsetAlignment`. -/
theorem alignmentPerInstance_dvd_offset (u : SrcUbo) (i j : Nat) (hi : i < 64) (hj : j < 64)
    (hc : u.srcDevice.nonCoherentAtomSize = 2 ^ i)
    (ho : u.srcDevice.minUniformBufferOffsetAlignment = 2 ^ j)
    (hd : u.descriptorInfoPerElement = true) :
    ((2 ^ j : Nat) : Int) ∣ (calculateAlignmentAndRegionSize u).alignmentPerInstance := by
  rw [alignmentPerInstance_eq]
  cases hf : u.flushablePerElement
  · have ha : elementAlign u = some (2 ^ j) := by simp [elementAlign, hf, hd, ho]
    rw [ha]
    exact toInt_dvd _ _ (getAlignment_two_pow_dvd _ _ hj)
  · have ha : elementAlign u = some (2 ^ max i j) := by
      simp [elementAlign, hf, hd, hc, ho, std_lcm_two_pow i j hi hj]
    rw [ha]
    exact dvd_trans (two_pow_cast_dvd j (max i j) (le_max_right i j))
      (toInt_dvd _ _ (getAlignment_two_pow_dvd _ _ (max_lt hi hj)))

/-! ## Claims -/

/-- C1 (offset non-overlap).  For every layout computed by `calculateAlignmentAndRegionSize`
from a positive `instanceSize`, any two device limits and any flags, without arithmetic
wrap-around, two distinct in-bounds index pairs `(r1, e1)` and `(r2, e2)` address disjoint byte
ranges `[off, off + instanceSize)`, where `off = r * regionSize + e * alignmentPerInstance` is
the offset used by `get` and `write`. -/
theorem offsets_disjoint (u : SrcUbo) (hs : 0 < u.instanceSize) (hw : NoWrap u)
    (r1 e1 r2 e2 : Int)
    (hr1 : 0 ≤ r1 ∧ r1 < u.numRegions) (he1 : 0 ≤ e1 ∧ e1 < u.instancesPerRegion)
    (hr2 : 0 ≤ r2 ∧ r2 < u.numRegions) (he2 : 0 ≤ e2 ∧ e2 < u.instancesPerRegion)
    (hne : (r1, e1) ≠ (r2, e2)) :
    r1 * (calculateAlignmentAndRegionSize u).regionSize
        + e1 * (calculateAlignmentAndRegionSize u).alignmentPerInstance
        + (calculateAlignmentAndRegionSize u).instanceSize
      ≤ r2 * (calculateAlignmentAndRegionSize u).regionSize
        + e2 * (calculateAlignmentAndRegionSize u).alignmentPerInstance
    ∨
    r2 * (calculateAlignmentAndRegionSize u).regionSize
        + e2 * (calculateAlignmentAndRegionSize u).alignmentPerInstance
        + (calculateAlignmentAndRegionSize u).instanceSize
      ≤ r1 * (calculateAlignmentAndRegionSize u).regionSize
        + e1 * (calculateAlignmentAndRegionSize u).alignmentPerInstance := by
  have hsz : (calculateAlignmentAndRegionSize u).instanceSize = u.instanceSize :=
    (calculate_fields u).1
  have h1 := alignmentPerInstance_ge u hw
  have h2 := regionSize_ge u hw
  rw [hsz]
  generalize (calculateAlignmentAndRegionSize u).alignmentPerInstance = api at h1 h2 ⊢
  generalize (calculateAlignmentAndRegionSize u).regionSize = rs at h2 ⊢
  have hapi : 0 ≤ api := by linarith
  have hn : 0 ≤ u.instancesPerRegion := by linarith [he1.1, he1.2]
  have hrs : 0 ≤ rs := le_trans (mul_nonneg hn hapi) h2
  have in1 := element_in_region u.instanceSize api rs u.instancesPerRegion r1 e1 h1 h2 hapi he1.2
  have in2 := element_in_region u.instanceSize api rs u.instancesPerRegion r2 e2 h1 h2 hapi he2.2
  have p1 : 0 ≤ e1 * api := mul_nonneg he1.1 hapi
  have p2 : 0 ≤ e2 * api := mul_nonneg he2.1 hapi
  rcases lt_trichotomy r1 r2 with hlt | heq | hgt
  · left
    have h3 : (r1 + 1) * rs ≤ r2 * rs := mul_le_mul_of_nonneg_right (by omega) hrs
    linarith [in1.1, in1.2]
  · subst heq
    have hee : e1 ≠ e2 := fun h => hne (by rw [h])
    rcases lt_or_gt_of_ne hee with hlt | hgt
    · left
      have h3 : (e1 + 1) * api ≤ e2 * api := mul_le_mul_of_nonneg_right (by omega) hapi
      linarith
    · right
      have h3 : (e2 + 1) * api ≤ e1 * api := mul_le_mul_of_nonneg_right (by omega) hapi
      linarith
  · right
    have h3 : (r2 + 1) * rs ≤ r1 * rs := mul_le_mul_of_nonneg_right (by omega) hrs
    linarith [in2.1, in2.2]

/-- Witness of C1 on `smallUbo`: elements `(0, 1)` and `(1, 0)`. -/
theorem offsets_disjoint_witness :
    0 * (calculateAlignmentAndRegionSize smallUbo).regionSize
        + 1 * (calculateAlignmentAndRegionSize smallUbo).alignmentPerInstance
        + (calculateAlignmentAndRegionSize smallUbo).instanceSize
      ≤ 1 * (calculateAlignmentAndRegionSize smallUbo).regionSize
        + 0 * (calculateAlignmentAndRegionSize smallUbo).alignmentPerInstance
    ∨
    1 * (calculateAlignmentAndRegionSize smallUbo).regionSize
        + 0 * (calculateAlignmentAndRegionSize smallUbo).alignmentPerInstance
        + (calculateAlignmentAndRegionSize smallUbo).instanceSize
      ≤ 0 * (calculateAlignmentAndRegionSize smallUbo).regionSize
        + 1 * (calculateAlignmentAndRegionSize smallUbo).alignmentPerInstance :=
  offsets_disjoint smallUbo (by decide) (by decide) 0 1 1 0 (by decide) (by decide)
    (by decide) (by decide) (by decide)

/-- C2 (round trip), as amended with the absence of wrap-around.  On a constructed buffer with
a positive payload size, a layout computed without wrap-around and a buffer size
`regionSize * numRegions` that fits in `int`, `write(item, r, e)` with in-bounds `(r, e)` and
an item of `instanceSize` bytes succeeds, it overwrites exactly the `instanceSize` bytes at
offset `r * regionSize + e * alignmentPerInstance` of the mapped array, and `get(r, e)` on the
resulting buffer returns `item`. -/
theorem write_get_round_trip (u : SrcUbo) (hc : Constructed u) (hs : 0 < u.instanceSize)
    (hw : NoWrap u) (hfit : u.regionSize * u.numRegions < 2 ^ 31)
    (r e : Int) (hr : 0 ≤ r ∧ r < u.numRegions)
    (he : 0 ≤ e ∧ e < u.instancesPerRegion)
    (item : List UInt8) (hlen : (item.length : Int) = u.instanceSize) :
    ∃ v mem, u.buffer.mapped = some mem ∧ u.write item r e = Outcome.ok v ∧
      v.buffer.mapped = some
        (mem.take (r * u.regionSize + e * u.alignmentPerInstance).toNat ++ item ++
          mem.drop ((r * u.regionSize + e * u.alignmentPerInstance).toNat
            + u.instanceSize.toNat)) ∧
      v.get r e = Outcome.ok item := by
  obtain ⟨h0, h1, h2, h3⟩ := slot_in_allocation u hc hs hw r e hr.1 hr.2 he.1 he.2
  obtain ⟨hapi, hrs⟩ := strides_nonneg u hc hs hw (by linarith [he.1, he.2])
  have p1 : 0 ≤ r * u.regionSize := mul_nonneg hr.1 hrs
  have p2 : 0 ≤ e * u.alignmentPerInstance := mul_nonneg he.1 hapi
  have hoff := offset_exact r u.regionSize e u.alignmentPerInstance
    (u.regionSize * u.numRegions) p1 p2 (by linarith) hfit
  obtain ⟨mem, hmem, hmlen0⟩ := hc.2
  have hmlen := constructed_length u mem hmlen0 (by linarith) hfit
  have hfit2 : r * u.regionSize + e * u.alignmentPerInstance + u.instanceSize ≤ mem.length := by
    rw [hmlen]; linarith
  have hsz : 0 ≤ u.instanceSize := le_of_lt hs
  have hnat : (r * u.regionSize + e * u.alignmentPerInstance).toNat + u.instanceSize.toNat
      ≤ mem.length := by omega
  have hdl : item.length = u.instanceSize.toNat := by omega
  obtain ⟨hl, hread⟩ := splice_read mem item _ _ hnat hdl
  have htake : item.take u.instanceSize.toNat = item := by
    rw [← hdl]; exact List.take_length item
  rw [htake] at hl hread
  have hcond : 0 ≤ r * u.regionSize + e * u.alignmentPerInstance ∧ 0 ≤ u.instanceSize ∧
      r * u.regionSize + e * u.alignmentPerInstance + u.instanceSize ≤ (mem.length : Int) ∧
      u.instanceSize ≤ (item.length : Int) := ⟨h0, hsz, hfit2, by omega⟩
  refine ⟨{ u with buffer := ⟨u.buffer.bufferSize,
    some (mem.take (r * u.regionSize + e * u.alignmentPerInstance).toNat
      ++ item
      ++ mem.drop ((r * u.regionSize + e * u.alignmentPerInstance).toNat
          + u.instanceSize.toNat))⟩ }, mem, hmem, ?_, rfl, ?_⟩
  · simp only [SrcUbo.write, SrcBuffer.writeToBuffer, hmem, hoff]
    rw [if_neg (not_not.mpr hr.2), if_neg (not_not.mpr he.2), if_pos hcond, htake]
  · simp only [SrcUbo.get, readAt, hoff]
    rw [if_neg (not_not.mpr hr.2), if_neg (not_not.mpr he.2)]
    rw [if_pos ⟨h0, hsz, by rw [hl]; exact hfit2⟩, hread]

/-- Witness of C2 as amended on `smallUbo`: the item `[1, 2, 3, 4]` at element `(1, 1)`. -/
theorem write_get_round_trip_witness :
    ∃ v mem, smallUbo.buffer.mapped = some mem ∧
      smallUbo.write [1, 2, 3, 4] 1 1 = Outcome.ok v ∧
      v.buffer.mapped = some
        (mem.take (1 * smallUbo.regionSize + 1 * smallUbo.alignmentPerInstance).toNat
          ++ [1, 2, 3, 4] ++
          mem.drop ((1 * smallUbo.regionSize + 1 * smallUbo.alignmentPerInstance).toNat
            + smallUbo.instanceSize.toNat)) ∧
      v.get 1 1 = Outcome.ok [1, 2, 3, 4] :=
  write_get_round_trip smallUbo smallUbo_constructed (by decide) smallUbo_noWrap (by decide)
    1 1 (by decide) (by decide) [1, 2, 3, 4] (by decide)

/-- Counterexample to C2 as stated.  First buffer: 16-byte payload, limits `2 ^ 32` and 1,
`flushablePerElement` only, one instance, two regions; `getAlignment` returns `2 ^ 32`, the
`int` members hold `alignmentPerInstance = regionSize = 0`, the buffer has 0 bytes, and for the
in-bounds element `(0, 0)` both `write` and `get` address bytes outside the mapped array.
Second buffer: limits 64 and 256, `2 ^ 26` instances, four regions; the layout is computed
without wrap-around (`regionSize = 2 ^ 30`), the `int` product `regionSize * numRegions` wraps
to 0, and `write` and `get` at `(0, 0)` are outside the mapped array again. -/
theorem round_trip_fails_after_wrap :
    ((SrcUbo.new 16 ⟨2 ^ 32, 1⟩ 1 true false 2).regionSize = 0 ∧
      (SrcUbo.new 16 ⟨2 ^ 32, 1⟩ 1 true false 2).buffer.mapped = some [] ∧
      (SrcUbo.new 16 ⟨2 ^ 32, 1⟩ 1 true false 2).write (List.replicate 16 7) 0 0
        = Outcome.memoryFault ∧
      (SrcUbo.new 16 ⟨2 ^ 32, 1⟩ 1 true false 2).get 0 0 = Outcome.memoryFault) ∧
    (NoWrap (SrcUbo.new 16 ⟨64, 256⟩ (2 ^ 26) false false 4) ∧
      (SrcUbo.new 16 ⟨64, 256⟩ (2 ^ 26) false false 4).regionSize = 2 ^ 30 ∧
      (SrcUbo.new 16 ⟨64, 256⟩ (2 ^ 26) false false 4).buffer.mapped = some [] ∧
      (SrcUbo.new 16 ⟨64, 256⟩ (2 ^ 26) false false 4).write (List.replicate 16 7) 0 0
        = Outcome.memoryFault ∧
      (SrcUbo.new 16 ⟨64, 256⟩ (2 ^ 26) false false 4).get 0 0 = Outcome.memoryFault) := by
  decide

/-- C3 (ranges stay inside the allocation), as amended with the absence of wrap-around.  On a
constructed buffer with a positive payload size, a layout computed without wrap-around and a
buffer size `regionSize * numRegions` that fits in `int`, for in-bounds `(r, e)`: the element
range of `get` and `write` lies in `[0, regionSize * numRegions)` and both calls access the
mapped array without fault; the range of `flushElement` and `bufferInfoForElement`
(`alignmentPerInstance` bytes at the element offset) and the range of `flushRegion` and
`bufferInfoForRegion` (`regionSize` bytes at `r * regionSize`) end at or before
`(r + 1) * regionSize`, which is inside the allocation. -/
theorem ranges_inside_allocation (u : SrcUbo) (hc : Constructed u) (hs : 0 < u.instanceSize)
    (hw : NoWrap u) (hfit : u.regionSize * u.numRegions < 2 ^ 31)
    (r e : Int) (hr : 0 ≤ r ∧ r < u.numRegions)
    (he : 0 ≤ e ∧ e < u.instancesPerRegion) :
    (0 ≤ r * u.regionSize + e * u.alignmentPerInstance ∧
      r * u.regionSize + e * u.alignmentPerInstance + u.instanceSize
        ≤ u.regionSize * u.numRegions) ∧
    (∃ mem, u.buffer.mapped = some mem ∧ (mem.length : Int) = u.regionSize * u.numRegions) ∧
    (∃ bytes, u.get r e = Outcome.ok bytes) ∧
    (∀ item : List UInt8, (item.length : Int) = u.instanceSize →
      ∃ v, u.write item r e = Outcome.ok v) ∧
    (∀ rng, (u.flushElement r e = Outcome.ok rng ∨ u.bufferInfoForElement r e = Outcome.ok rng) →
      rng.size = u.alignmentPerInstance ∧
      rng.offset = r * u.regionSize + e * u.alignmentPerInstance ∧
      0 ≤ rng.offset ∧ rng.offset + rng.size ≤ (r + 1) * u.regionSize) ∧
    (u.flushRegion r = Outcome.ok ⟨u.regionSize, u.regionSize * r⟩ ∧
      u.bufferInfoForRegion r = Outcome.ok ⟨u.regionSize, u.regionSize * r⟩ ∧
      0 ≤ u.regionSize * r ∧ u.regionSize * r + u.regionSize ≤ (r + 1) * u.regionSize) ∧
    (r + 1) * u.regionSize ≤ u.regionSize * u.numRegions := by
  obtain ⟨h0, h1, h2, h3⟩ := slot_in_allocation u hc hs hw r e hr.1 hr.2 he.1 he.2
  obtain ⟨hapi, hrsn⟩ := strides_nonneg u hc hs hw (by linarith [he.1, he.2])
  have p1 : 0 ≤ r * u.regionSize := mul_nonneg hr.1 hrsn
  have p2 : 0 ≤ e * u.alignmentPerInstance := mul_nonneg he.1 hapi
  have hoff := offset_exact r u.regionSize e u.alignmentPerInstance
    (u.regionSize * u.numRegions) p1 p2 (by linarith) hfit
  have hoff2 : intAdd (intMul r u.regionSize) (intMul u.alignmentPerInstance e)
      = r * u.regionSize + e * u.alignmentPerInstance := by
    rw [mul_comm e u.alignmentPerInstance] at p2 ⊢
    exact offset_exact r u.regionSize u.alignmentPerInstance e
      (u.regionSize * u.numRegions) p1 p2 (by linarith) hfit
  have hrs : 0 ≤ u.regionSize * r := mul_nonneg hrsn hr.1
  have hreg : intMul u.regionSize r = u.regionSize * r :=
    intMul_of_fits _ _ ⟨by linarith, by linarith⟩
  obtain ⟨mem, hmem, hmlen0⟩ := hc.2
  have hmlen := constructed_length u mem hmlen0 (by linarith) hfit
  refine ⟨⟨h0, by linarith⟩, ⟨mem, hmem, hmlen⟩, ?_, ?_, ?_, ⟨?_, ?_, hrs, by linarith⟩, h3⟩
  · simp only [SrcUbo.get, readAt, hmem, hoff]
    rw [if_neg (not_not.mpr hr.2), if_neg (not_not.mpr he.2),
      if_pos ⟨h0, le_of_lt hs, by rw [hmlen]; linarith⟩]
    exact ⟨_, rfl⟩
  · intro item hlen
    simp only [SrcUbo.write, SrcBuffer.writeToBuffer, hmem, hoff]
    rw [if_neg (not_not.mpr hr.2), if_neg (not_not.mpr he.2),
      if_pos ⟨h0, le_of_lt hs, by rw [hmlen]; linarith, by omega⟩]
    exact ⟨_, rfl⟩
  · intro rng hrng
    have hval : rng = ⟨u.alignmentPerInstance,
        r * u.regionSize + e * u.alignmentPerInstance⟩ := by
      rcases hrng with h | h
      · simp only [SrcUbo.flushElement, SrcBuffer.flush, hoff2] at h
        rw [if_neg (not_not.mpr hr.2), if_neg (not_not.mpr he.2)] at h
        split at h
        · exact absurd h (by simp)
        · rw [← Outcome.ok.inj h]
      · simp only [SrcUbo.bufferInfoForElement, SrcBuffer.descriptorInfo, hoff] at h
        rw [if_neg (not_not.mpr hr.2), if_neg (not_not.mpr he.2)] at h
        split at h
        · exact absurd h (by simp)
        · rw [← Outcome.ok.inj h]
    subst hval
    exact ⟨rfl, rfl, h0, h2⟩
  · simp only [SrcUbo.flushRegion, SrcBuffer.flush, hreg]
    rw [if_neg (not_not.mpr hr.2)]
  · simp only [SrcUbo.bufferInfoForRegion, SrcBuffer.descriptorInfo, hreg]
    rw [if_neg (not_not.mpr hr.2)]

/-- Witness of C3 as amended on `smallUbo` at element `(1, 1)`: the element range is
`[24, 28)` of the 32 allocated bytes. -/
theorem ranges_inside_allocation_witness :
    (0 ≤ 1 * smallUbo.regionSize + 1 * smallUbo.alignmentPerInstance ∧
      1 * smallUbo.regionSize + 1 * smallUbo.alignmentPerInstance + smallUbo.instanceSize
        ≤ smallUbo.regionSize * smallUbo.numRegions) ∧
    smallUbo.regionSize * smallUbo.numRegions = 32 :=
  ⟨(ranges_inside_allocation smallUbo smallUbo_constructed (by decide) smallUbo_noWrap
    (by decide) 1 1 (by decide) (by decide)).1, by decide⟩

/-- Counterexample to C3 as stated.  First buffer (limits `2 ^ 32` and 1, 16-byte payload,
`flushablePerElement` only, one instance, two regions): the `int` members hold
`alignmentPerInstance = regionSize = 0`, so for the in-bounds element `(0, 0)` the range
`[0, 16)` exceeds the allocation of `regionSize * numRegions = 0` bytes.  Second buffer (limits
64 and 256, `2 ^ 26` instances, four regions): the layout is computed without wrap-around, the
`int` product `regionSize * numRegions` wraps to 0, the allocation has 0 bytes, and
`flushRegion(2)` passes the offset `-2 ^ 31`. -/
theorem allocation_exceeded_after_wrap :
    ((SrcUbo.new 16 ⟨2 ^ 32, 1⟩ 1 true false 2).instanceSize = 16 ∧
      (SrcUbo.new 16 ⟨2 ^ 32, 1⟩ 1 true false 2).regionSize *
        (SrcUbo.new 16 ⟨2 ^ 32, 1⟩ 1 true false 2).numRegions = 0 ∧
      ¬ (0 * (SrcUbo.new 16 ⟨2 ^ 32, 1⟩ 1 true false 2).regionSize
          + 0 * (SrcUbo.new 16 ⟨2 ^ 32, 1⟩ 1 true false 2).alignmentPerInstance
          + (SrcUbo.new 16 ⟨2 ^ 32, 1⟩ 1 true false 2).instanceSize
        ≤ (SrcUbo.new 16 ⟨2 ^ 32, 1⟩ 1 true false 2).regionSize *
          (SrcUbo.new 16 ⟨2 ^ 32, 1⟩ 1 true false 2).numRegions) ∧
      (SrcUbo.new 16 ⟨2 ^ 32, 1⟩ 1 true false 2).buffer.bufferSize = 0 ∧
      (SrcUbo.new 16 ⟨2 ^ 32, 1⟩ 1 true false 2).get 0 0 = Outcome.memoryFault) ∧
    (NoWrap (SrcUbo.new 16 ⟨64, 256⟩ (2 ^ 26) false false 4) ∧
      (SrcUbo.new 16 ⟨64, 256⟩ (2 ^ 26) false false 4).buffer.bufferSize = 0 ∧
      (SrcUbo.new 16 ⟨64, 256⟩ (2 ^ 26) false false 4).get 0 0 = Outcome.memoryFault ∧
      (SrcUbo.new 16 ⟨64, 256⟩ (2 ^ 26) false false 4).flushRegion 2
        = Outcome.ok ⟨2 ^ 30, -2 ^ 31⟩) := by
  decide

/-- C8 (strides never shrink).  For any device limits (powers of two or not) and any flags,
without arithmetic wrap-around, the computed layout has
`alignmentPerInstance >= instanceSize` and
`regionSize >= instancesPerRegion * alignmentPerInstance`; and `getAlignment(s, a) >= s` for
every `s` and `a` whose sum `s + a - 1` does not wrap. -/
theorem strides_never_shrink (u : SrcUbo) (hs : 0 < u.instanceSize)
    (hn : 1 ≤ u.instancesPerRegion) (hw : NoWrap u) :
    u.instanceSize ≤ (calculateAlignmentAndRegionSize u).alignmentPerInstance ∧
    u.instancesPerRegion * (calculateAlignmentAndRegionSize u).alignmentPerInstance
      ≤ (calculateAlignmentAndRegionSize u).regionSize ∧
    (∀ s a : Nat, (0 < a → s + a - 1 < 2 ^ 64) → s ≤ getAlignment s a) :=
  ⟨alignmentPerInstance_ge u hw, regionSize_ge u hw, getAlignment_ge⟩

/-- Witness of C8: limits 3 and 5 (no powers of two), 7-byte payload, three instances. -/
theorem strides_never_shrink_witness :
    (7 : Int) ≤ (calculateAlignmentAndRegionSize
      ⟨⟨0, none⟩, ⟨3, 5⟩, 2, 0, 3, 0, 7, true, true⟩).alignmentPerInstance ∧
    3 * (calculateAlignmentAndRegionSize
      ⟨⟨0, none⟩, ⟨3, 5⟩, 2, 0, 3, 0, 7, true, true⟩).alignmentPerInstance
      ≤ (calculateAlignmentAndRegionSize
      ⟨⟨0, none⟩, ⟨3, 5⟩, 2, 0, 3, 0, 7, true, true⟩).regionSize :=
  ⟨(strides_never_shrink ⟨⟨0, none⟩, ⟨3, 5⟩, 2, 0, 3, 0, 7, true, true⟩
      (by decide) (by decide) (by decide)).1,
   (strides_never_shrink ⟨⟨0, none⟩, ⟨3, 5⟩, 2, 0, 3, 0, 7, true, true⟩
      (by decide) (by decide) (by decide)).2.1⟩

/-- Upper-bound violations are rejected: every accessor fails its precondition check when
`regionIndex >= numRegions`, and every accessor taking an element index fails when that index
is `>= instancesPerRegion` (`flushRange` for `elementStart` and for `elementEnd`). -/
theorem upper_bound_violation_fails (u : SrcUbo) (r e : Int) :
    (u.numRegions ≤ r →
      ∀ (x y : Int) (item : List UInt8),
        u.get r x = Outcome.assertFailed ∧
        u.write item r x = Outcome.assertFailed ∧
        u.flushRegion r = Outcome.assertFailed ∧
        u.flushRange r x y = Outcome.assertFailed ∧
        u.flushElement r x = Outcome.assertFailed ∧
        u.bufferInfoForRegion r = Outcome.assertFailed ∧
        u.bufferInfoForElement r x = Outcome.assertFailed) ∧
    (u.instancesPerRegion ≤ e →
      ∀ (x y : Int) (item : List UInt8),
        u.get x e = Outcome.assertFailed ∧
        u.write item x e = Outcome.assertFailed ∧
        u.flushRange x e y = Outcome.assertFailed ∧
        u.flushRange x y e = Outcome.assertFailed ∧
        u.flushElement x e = Outcome.assertFailed ∧
        u.bufferInfoForElement x e = Outcome.assertFailed) := by
  constructor
  · intro h x y item
    have hr : ¬ r < u.numRegions := not_lt.mpr h
    simp [SrcUbo.get, SrcUbo.write, SrcUbo.flushRegion, SrcUbo.flushRange, SrcUbo.flushElement,
      SrcUbo.bufferInfoForRegion, SrcUbo.bufferInfoForElement, hr]
  · intro h x y item
    have he : ¬ e < u.instancesPerRegion := not_lt.mpr h
    simp [SrcUbo.get, SrcUbo.write, SrcUbo.flushRange, SrcUbo.flushElement,
      SrcUbo.bufferInfoForElement, he]

/-- The spec's out-of-bounds scenario: with `numRegions = 2` every accessor called with
`regionIndex = 2` fails. -/
theorem region_index_two_fails :
    smallUbo.numRegions = 2 ∧
    smallUbo.get 2 0 = Outcome.assertFailed ∧
    smallUbo.write [1, 2, 3, 4] 2 0 = Outcome.assertFailed ∧
    smallUbo.flushRegion 2 = Outcome.assertFailed ∧
    smallUbo.flushRange 2 0 1 = Outcome.assertFailed ∧
    smallUbo.flushElement 2 0 = Outcome.assertFailed ∧
    smallUbo.bufferInfoForRegion 2 = Outcome.assertFailed ∧
    smallUbo.bufferInfoForElement 2 0 = Outcome.assertFailed :=
  ⟨by decide, (upper_bound_violation_fails smallUbo 2 0).1 (by decide) 0 1 [1, 2, 3, 4]⟩

/-- C4 (the code at the failing input).  Every assertion has the form `index < bound` on a
signed `int`, so an index below 0 is outside the range `0 <= index < bound` and still passes:
on a buffer with two regions of two elements, `flushElement(-1, 0)`,
`bufferInfoForElement(0, -1)` and `flushRegion(-1)` pass their checks and hand a negative
offset to the buffer, where the claim says the call fails its precondition check. -/
theorem negative_index_passes_checks :
    smallUbo.numRegions = 2 ∧ smallUbo.instancesPerRegion = 2 ∧
    smallUbo.flushElement (-1) 0 = Outcome.ok ⟨8, -16⟩ ∧
    smallUbo.bufferInfoForElement 0 (-1) = Outcome.ok ⟨8, -8⟩ ∧
    smallUbo.flushRegion (-1) = Outcome.ok ⟨16, -16⟩ := by
  decide

/-- C5 (capability gating), as amended: the offset is an `int` expression.  For every index
pair, `flushElement` and `flushRange` fail when `flushablePerElement` is false and
`bufferInfoForElement` fails when `descriptorInfoPerElement` is false; with the flag true,
`flushElement` and `bufferInfoForElement` succeed for every in-bounds `(r, e)` and pass size
`alignmentPerInstance` and the offset `r * regionSize + e * alignmentPerInstance` computed in
`int`, which is the exact value whenever the two products and their sum fit in `int`. -/
theorem capability_gating (u : SrcUbo) (r e : Int) :
    (u.flushablePerElement = false →
      u.flushElement r e = Outcome.assertFailed ∧
      ∀ s t : Int, u.flushRange r s t = Outcome.assertFailed) ∧
    (u.descriptorInfoPerElement = false →
      u.bufferInfoForElement r e = Outcome.assertFailed) ∧
    (u.flushablePerElement = true → 0 ≤ r ∧ r < u.numRegions →
      0 ≤ e ∧ e < u.instancesPerRegion →
      u.flushElement r e = Outcome.ok
        ⟨u.alignmentPerInstance,
         intAdd (intMul r u.regionSize) (intMul u.alignmentPerInstance e)⟩ ∧
      (FitsInt (r * u.regionSize) → FitsInt (e * u.alignmentPerInstance) →
        FitsInt (r * u.regionSize + e * u.alignmentPerInstance) →
        u.flushElement r e = Outcome.ok
          ⟨u.alignmentPerInstance, r * u.regionSize + e * u.alignmentPerInstance⟩)) ∧
    (u.descriptorInfoPerElement = true → 0 ≤ r ∧ r < u.numRegions →
      0 ≤ e ∧ e < u.instancesPerRegion →
      u.bufferInfoForElement r e = Outcome.ok
        ⟨u.alignmentPerInstance,
         intAdd (intMul r u.regionSize) (intMul e u.alignmentPerInstance)⟩ ∧
      (FitsInt (r * u.regionSize) → FitsInt (e * u.alignmentPerInstance) →
        FitsInt (r * u.regionSize + e * u.alignmentPerInstance) →
        u.bufferInfoForElement r e = Outcome.ok
          ⟨u.alignmentPerInstance, r * u.regionSize + e * u.alignmentPerInstance⟩)) := by
  refine ⟨?_, ?_, ?_, ?_⟩
  · intro h
    constructor
    · unfold SrcUbo.flushElement
      simp [h]
    · intro s t
      unfold SrcUbo.flushRange
      simp [h]
  · intro h
    unfold SrcUbo.bufferInfoForElement
    simp [h]
  · intro h hr he
    have hcall : u.flushElement r e = Outcome.ok
        ⟨u.alignmentPerInstance,
         intAdd (intMul r u.regionSize) (intMul u.alignmentPerInstance e)⟩ := by
      unfold SrcUbo.flushElement SrcBuffer.flush
      rw [if_neg (not_not.mpr hr.2), if_neg (not_not.mpr he.2), if_neg (by simp [h])]
    refine ⟨hcall, ?_⟩
    intro f1 f2 f3
    rw [hcall, intMul_of_fits _ _ f1, intMul_of_fits _ _ (by rw [mul_comm]; exact f2),
      mul_comm u.alignmentPerInstance e, intAdd_of_fits _ _ f3]
  · intro h hr he
    have hcall : u.bufferInfoForElement r e = Outcome.ok
        ⟨u.alignmentPerInstance,
         intAdd (intMul r u.regionSize) (intMul e u.alignmentPerInstance)⟩ := by
      unfold SrcUbo.bufferInfoForElement SrcBuffer.descriptorInfo
      rw [if_neg (not_not.mpr hr.2), if_neg (not_not.mpr he.2), if_neg (by simp [h])]
    refine ⟨hcall, ?_⟩
    intro f1 f2 f3
    rw [hcall, intMul_of_fits _ _ f1, intMul_of_fits _ _ f2, intAdd_of_fits _ _ f3]

/-- Witness of C5 as amended: with both flags true element `(1, 1)` of `smallUbo` is flushed
and described as 8 bytes at offset 24; with both flags false the per-element calls fail. -/
theorem capability_gating_witness :
    smallUbo.flushElement 1 1 = Outcome.ok ⟨8, 24⟩ ∧
    smallUbo.bufferInfoForElement 1 1 = Outcome.ok ⟨8, 24⟩ ∧
    (SrcUbo.new 4 ⟨4, 8⟩ 2 false false 2).flushElement 1 1 = Outcome.assertFailed ∧
    (SrcUbo.new 4 ⟨4, 8⟩ 2 false false 2).bufferInfoForElement 1 1 = Outcome.assertFailed :=
  ⟨((capability_gating smallUbo 1 1).2.2.1 (by decide) (by decide) (by decide)).2
      (by decide) (by decide) (by decide),
   ((capability_gating smallUbo 1 1).2.2.2 (by decide) (by decide) (by decide)).2
      (by decide) (by decide) (by decide),
   ((capability_gating (SrcUbo.new 4 ⟨4, 8⟩ 2 false false 2) 1 1).1 (by decide)).1,
   (capability_gating (SrcUbo.new 4 ⟨4, 8⟩ 2 false false 2) 1 1).2.1 (by decide)⟩

/-- Counterexample to C5 as stated: 16-byte payload, limits 64 and 256, both flags true,
`2 ^ 22` instances per region and five regions give `alignmentPerInstance = 256` and
`regionSize = 2 ^ 30` without wrap-around; for the in-bounds element `(4, 0)` the exact value
of `r * regionSize + e * alignmentPerInstance` is `2 ^ 32`, and the `int` expression of
`flushElement` and `bufferInfoForElement` passes the offset 0. -/
theorem offset_wraps_in_int :
    NoWrap (SrcUbo.new 16 ⟨64, 256⟩ (2 ^ 22) true true 5) ∧
    (SrcUbo.new 16 ⟨64, 256⟩ (2 ^ 22) true true 5).numRegions = 5 ∧
    (SrcUbo.new 16 ⟨64, 256⟩ (2 ^ 22) true true 5).instancesPerRegion = 2 ^ 22 ∧
    4 * (SrcUbo.new 16 ⟨64, 256⟩ (2 ^ 22) true true 5).regionSize
      + 0 * (SrcUbo.new 16 ⟨64, 256⟩ (2 ^ 22) true true 5).alignmentPerInstance = 2 ^ 32 ∧
    (SrcUbo.new 16 ⟨64, 256⟩ (2 ^ 22) true true 5).flushElement 4 0 = Outcome.ok ⟨256, 0⟩ ∧
    (SrcUbo.new 16 ⟨64, 256⟩ (2 ^ 22) true true 5).bufferInfoForElement 4 0
      = Outcome.ok ⟨256, 0⟩ := by
  decide

/-- C6 (the code at the failing input).  `flushRange` asserts `elementEnd < instancesPerRegion`,
so a call whose half-open range ends at `instancesPerRegion` always fails; on the scenario
buffer (four instances per region, `flushablePerElement = true`) `flushRange(0, 0, 4)` and
`flushRange(0, 3, 4)` fail while `flushRange(0, 0, 3)` flushes `3 * 256` bytes at offset 0. -/
theorem flushRange_rejects_last_element :
    (∀ (u : SrcUbo) (r s : Int), u.flushRange r s u.instancesPerRegion = Outcome.assertFailed) ∧
    (SrcUbo.new 16 ⟨64, 256⟩ 4 true true 2).flushRange 0 0 4 = Outcome.assertFailed ∧
    (SrcUbo.new 16 ⟨64, 256⟩ 4 true true 2).flushRange 0 3 4 = Outcome.assertFailed ∧
    (SrcUbo.new 16 ⟨64, 256⟩ 4 true true 2).flushRange 0 0 3 = Outcome.ok ⟨768, 0⟩ := by
  refine ⟨?_, by decide, by decide, by decide⟩
  intro u r s
  simp [SrcUbo.flushRange]

/-- C7 (region independence), as amended: when both device limits are positive powers of two
(of type `VkDeviceSize`), the computed `regionSize` is a multiple of
`lcm(coherenceAtomSize, offsetAlignment)`, for every payload size, instance count and flag
combination. -/
theorem regionSize_multiple_of_lcm (u : SrcUbo) (i j : Nat) (hi : i < 64) (hj : j < 64)
    (hc : u.srcDevice.nonCoherentAtomSize = 2 ^ i)
    (ho : u.srcDevice.minUniformBufferOffsetAlignment = 2 ^ j) :
    ((Nat.lcm u.srcDevice.nonCoherentAtomSize u.srcDevice.minUniformBufferOffsetAlignment : Nat)
      : Int) ∣ (calculateAlignmentAndRegionSize u).regionSize := by
  rw [regionSize_eq, hc, ho, std_lcm_two_pow i j hi hj, lcm_two_pow]
  exact toInt_dvd _ _ (getAlignment_two_pow_dvd _ _ (max_lt hi hj))

/-- Witness of C7 as amended: limits 64 and 256, both flags false; `regionSize` is 256. -/
theorem regionSize_multiple_of_lcm_witness :
    ((Nat.lcm 64 256 : Nat) : Int) ∣
      (calculateAlignmentAndRegionSize (scenarioInput false false)).regionSize :=
  regionSize_multiple_of_lcm (scenarioInput false false) 6 8 (by decide) (by decide)
    (by decide) (by decide)

/-- Counterexample to C7 as stated: with limits 3 and 1 (their lcm is 3), a 4-byte payload,
one instance per region and both flags false, `regionSize` is `(4 + 2) & ~2 = 4`, which is
not a multiple of 3. -/
theorem regionSize_not_multiple_of_three :
    (calculateAlignmentAndRegionSize
      ⟨⟨0, none⟩, ⟨3, 1⟩, 2, 0, 1, 0, 4, false, false⟩).regionSize = 4 ∧
    Nat.lcm 3 1 = 3 ∧
    ¬ ((Nat.lcm 3 1 : Nat) : Int) ∣ (calculateAlignmentAndRegionSize
      ⟨⟨0, none⟩, ⟨3, 1⟩, 2, 0, 1, 0, 4, false, false⟩).regionSize := by
  decide

/-- C9 (layout policy table), as amended with the absence of wrap-around: for positive
power-of-two limits `c = 2 ^ i` and `o = 2 ^ j`, `instanceSize > 0` and
`instancesPerRegion >= 1`, when no arithmetic step wraps around, `alignmentPerInstance` is the
smallest multiple of `A` that is `>= instanceSize`, with `A = lcm(c, o)` for both flags true,
`A = c` for `flushablePerElement` only, `A = o` for `descriptorInfoPerElement` only, and
`alignmentPerInstance = instanceSize` for both false; `regionSize` is the smallest multiple of
`lcm(c, o)` that is `>= instancesPerRegion * alignmentPerInstance` in all four cases.  The
scenario `(16, 64, 256, 4 instances)` gives 256 and 1024 with both flags true and 16 and 256
with both flags false. -/
theorem layout_policy_table (u : SrcUbo) (i j : Nat) (hi : i < 64) (hj : j < 64)
    (hc : u.srcDevice.nonCoherentAtomSize = 2 ^ i)
    (ho : u.srcDevice.minUniformBufferOffsetAlignment = 2 ^ j)
    (hs : 0 < u.instanceSize) (hn : 1 ≤ u.instancesPerRegion) (hw : NoWrap u) :
    (u.flushablePerElement = true → u.descriptorInfoPerElement = true →
      IsLeastMultiple ((Nat.lcm (2 ^ i) (2 ^ j) : Nat) : Int) u.instanceSize
        (calculateAlignmentAndRegionSize u).alignmentPerInstance) ∧
    (u.flushablePerElement = true → u.descriptorInfoPerElement = false →
      IsLeastMultiple ((2 ^ i : Nat) : Int) u.instanceSize
        (calculateAlignmentAndRegionSize u).alignmentPerInstance) ∧
    (u.flushablePerElement = false → u.descriptorInfoPerElement = true →
      IsLeastMultiple ((2 ^ j : Nat) : Int) u.instanceSize
        (calculateAlignmentAndRegionSize u).alignmentPerInstance) ∧
    (u.flushablePerElement = false → u.descriptorInfoPerElement = false →
      (calculateAlignmentAndRegionSize u).alignmentPerInstance = u.instanceSize) ∧
    IsLeastMultiple ((Nat.lcm (2 ^ i) (2 ^ j) : Nat) : Int)
      (u.instancesPerRegion * (calculateAlignmentAndRegionSize u).alignmentPerInstance)
      (calculateAlignmentAndRegionSize u).regionSize ∧
    (calculateAlignmentAndRegionSize (scenarioInput true true)).alignmentPerInstance = 256 ∧
    (calculateAlignmentAndRegionSize (scenarioInput true true)).regionSize = 1024 ∧
    (calculateAlignmentAndRegionSize (scenarioInput false false)).alignmentPerInstance = 16 ∧
    (calculateAlignmentAndRegionSize (scenarioInput false false)).regionSize = 256 := by
  have hL := std_lcm_two_pow i j hi hj
  have hel := hw.2.1
  have hreg := hw.2.2.2.2
  rw [hc, ho, hL] at hreg
  refine ⟨?_, ?_, ?_, ?_, ?_, by decide, by decide, by decide, by decide⟩
  · intro hf hd
    have ha : elementAlign u = some (2 ^ max i j) := by
      simp [elementAlign, hf, hd, hc, ho, hL]
    rw [alignmentPerInstance_eq, ha, lcm_two_pow]
    exact exactAlign_least _ _ (max_lt hi hj) (hel _ ha)
  · intro hf hd
    have ha : elementAlign u = some (2 ^ i) := by
      simp [elementAlign, hf, hd, hc]
    rw [alignmentPerInstance_eq, ha]
    exact exactAlign_least _ _ hi (hel _ ha)
  · intro hf hd
    have ha : elementAlign u = some (2 ^ j) := by
      simp [elementAlign, hf, hd, ho]
    rw [alignmentPerInstance_eq, ha]
    exact exactAlign_least _ _ hj (hel _ ha)
  · intro hf hd
    have ha : elementAlign u = none := by
      simp [elementAlign, hf, hd]
    rw [alignmentPerInstance_eq, ha]
  · rw [regionSize_eq, intMul_of_fits _ _ ⟨hw.2.2.1, hw.2.2.2.1⟩, hc, ho, hL, lcm_two_pow]
    exact exactAlign_least _ _ (max_lt hi hj) hreg

/-- Witness of C9 as amended, on the scenario with both flags true: 1024 is the smallest
multiple of `lcm(64, 256)` that is `>= 4 * alignmentPerInstance`. -/
theorem layout_policy_table_witness :
    IsLeastMultiple ((Nat.lcm (2 ^ 6) (2 ^ 8) : Nat) : Int)
      ((scenarioInput true true).instancesPerRegion *
        (calculateAlignmentAndRegionSize (scenarioInput true true)).alignmentPerInstance)
      (calculateAlignmentAndRegionSize (scenarioInput true true)).regionSize :=
  (layout_policy_table (scenarioInput true true) 6 8 (by decide) (by decide) (by decide)
    (by decide) (by decide) (by decide) (by decide)).2.2.2.2.1

/-- Counterexample to C9 as stated: with `coherenceAtomSize = 2 ^ 32`, `offsetAlignment = 1`,
a 16-byte payload and `flushablePerElement` only, `getAlignment` returns `2 ^ 32`, which the
`int` member `alignmentPerInstance` stores as 0: not the smallest multiple of `2 ^ 32` that is
`>= 16`. -/
theorem alignment_truncated_to_int :
    getAlignment 16 (2 ^ 32) = 2 ^ 32 ∧
    (calculateAlignmentAndRegionSize
      ⟨⟨0, none⟩, ⟨2 ^ 32, 1⟩, 2, 0, 1, 0, 16, true, false⟩).alignmentPerInstance = 0 ∧
    ¬ IsLeastMultiple ((2 ^ 32 : Nat) : Int) 16 (calculateAlignmentAndRegionSize
      ⟨⟨0, none⟩, ⟨2 ^ 32, 1⟩, 2, 0, 1, 0, 16, true, false⟩).alignmentPerInstance := by
  have h0 : (calculateAlignmentAndRegionSize
      ⟨⟨0, none⟩, ⟨2 ^ 32, 1⟩, 2, 0, 1, 0, 16, true, false⟩).alignmentPerInstance = 0 := by
    decide
  refine ⟨by decide, h0, ?_⟩
  rw [h0]
  intro h
  exact absurd h.2.1 (by decide)

/-- C10 (the code at the failing input).  `std::lcm` returns 0 as soon as one argument is 0,
so a single zero limit removes the other limit from the combined alignment: with
`coherenceAtomSize = 0`, `offsetAlignment = 256`, a 16-byte payload and one instance per
region, both flags true give `alignmentPerInstance = 16` and `regionSize = 16`, not a multiple
of 256, while `descriptorInfoPerElement` alone aligns the element to 256. -/
theorem zero_limit_drops_other_limit :
    (∀ x : Nat, std_lcm 0 x = 0 ∧ std_lcm x 0 = 0) ∧
    (calculateAlignmentAndRegionSize
      ⟨⟨0, none⟩, ⟨0, 256⟩, 2, 0, 1, 0, 16, true, true⟩).alignmentPerInstance = 16 ∧
    (calculateAlignmentAndRegionSize
      ⟨⟨0, none⟩, ⟨0, 256⟩, 2, 0, 1, 0, 16, true, true⟩).regionSize = 16 ∧
    ¬ (256 : Int) ∣ (calculateAlignmentAndRegionSize
      ⟨⟨0, none⟩, ⟨0, 256⟩, 2, 0, 1, 0, 16, true, true⟩).regionSize ∧
    (calculateAlignmentAndRegionSize
      ⟨⟨0, none⟩, ⟨0, 256⟩, 2, 0, 1, 0, 16, false, false⟩).regionSize = 16 ∧
    (calculateAlignmentAndRegionSize
      ⟨⟨0, none⟩, ⟨0, 256⟩, 2, 0, 1, 0, 16, false, true⟩).alignmentPerInstance = 256 := by
  refine ⟨?_, by decide, by decide, by decide, by decide, by decide⟩
  intro x
  simp [std_lcm]

/-- C11 (per-element operations are aligned to the active constraint).  For positive
power-of-two limits `c = nonCoherentAtomSize` and `o = minUniformBufferOffsetAlignment`, a
buffer whose layout members hold the computed values, and every in-bounds `(r, e)`: with
`descriptorInfoPerElement` set, `bufferInfoForElement` succeeds and the offset
`r * regionSize + e * alignmentPerInstance` it passes, as computed in `int`, is a multiple of
`o`; with `flushablePerElement` set, `flushElement` succeeds and both the offset and the size
(`alignmentPerInstance`) it passes are multiples of `c`.  The reason is part of the statement:
`alignmentPerInstance` is a multiple of every active constraint and `regionSize` is a multiple
of both. -/
theorem per_element_alignment (u : SrcUbo) (i j : Nat) (hi : i < 64) (hj : j < 64)
    (hc : u.srcDevice.nonCoherentAtomSize = 2 ^ i)
    (ho : u.srcDevice.minUniformBufferOffsetAlignment = 2 ^ j)
    (hl : calculateAlignmentAndRegionSize u = u)
    (r e : Int) (hr : 0 ≤ r ∧ r < u.numRegions) (he : 0 ≤ e ∧ e < u.instancesPerRegion) :
    (u.descriptorInfoPerElement = true →
      ∃ rng, u.bufferInfoForElement r e = Outcome.ok rng ∧
        rng.offset = intAdd (intMul r u.regionSize) (intMul e u.alignmentPerInstance) ∧
        (u.srcDevice.minUniformBufferOffsetAlignment : Int) ∣ rng.offset) ∧
    (u.flushablePerElement = true →
      ∃ rng, u.flushElement r e = Outcome.ok rng ∧
        rng.offset = intAdd (intMul r u.regionSize) (intMul u.alignmentPerInstance e) ∧
        rng.size = u.alignmentPerInstance ∧
        (u.srcDevice.nonCoherentAtomSize : Int) ∣ rng.offset ∧
        (u.srcDevice.nonCoherentAtomSize : Int) ∣ rng.size) ∧
    (u.descriptorInfoPerElement = true →
      (u.srcDevice.minUniformBufferOffsetAlignment : Int) ∣ u.alignmentPerInstance) ∧
    (u.flushablePerElement = true →
      (u.srcDevice.nonCoherentAtomSize : Int) ∣ u.alignmentPerInstance) ∧
    (u.srcDevice.nonCoherentAtomSize : Int) ∣ u.regionSize ∧
    (u.srcDevice.minUniformBufferOffsetAlignment : Int) ∣ u.regionSize := by
  have hrs := regionSize_dvd_max u i j hi hj hc ho
  have hapiC := alignmentPerInstance_dvd_atom u i j hi hj hc ho
  have hapiO := alignmentPerInstance_dvd_offset u i j hi hj hc ho
  rw [hl] at hrs hapiC hapiO
  have hrsC : ((2 ^ i : Nat) : Int) ∣ u.regionSize :=
    dvd_trans (two_pow_cast_dvd i (max i j) (le_max_left i j)) hrs
  have hrsO : ((2 ^ j : Nat) : Int) ∣ u.regionSize :=
    dvd_trans (two_pow_cast_dvd j (max i j) (le_max_right i j)) hrs
  rw [hc, ho]
  refine ⟨?_, ?_, hapiO, hapiC, hrsC, hrsO⟩
  · intro hd
    refine ⟨⟨u.alignmentPerInstance,
      intAdd (intMul r u.regionSize) (intMul e u.alignmentPerInstance)⟩, ?_, rfl, ?_⟩
    · unfold SrcUbo.bufferInfoForElement SrcBuffer.descriptorInfo
      rw [if_neg (not_not.mpr hr.2), if_neg (not_not.mpr he.2), if_neg (by simp [hd])]
    · exact wrapInt_dvd j _ (dvd_add (wrapInt_dvd j _ (Dvd.dvd.mul_left hrsO r))
        (wrapInt_dvd j _ (Dvd.dvd.mul_left (hapiO hd) e)))
  · intro hf
    refine ⟨⟨u.alignmentPerInstance,
      intAdd (intMul r u.regionSize) (intMul u.alignmentPerInstance e)⟩,
      ?_, rfl, rfl, ?_, hapiC hf⟩
    · unfold SrcUbo.flushElement SrcBuffer.flush
      rw [if_neg (not_not.mpr hr.2), if_neg (not_not.mpr he.2), if_neg (by simp [hf])]
    · exact wrapInt_dvd i _ (dvd_add (wrapInt_dvd i _ (Dvd.dvd.mul_left hrsC r))
        (wrapInt_dvd i _ (Dvd.dvd.mul_right (hapiC hf) e)))

/-- Witness of C11 on `smallUbo` (limits 4 and 8) at element `(1, 1)`: `flushElement` passes
offset 24 and size 8, both multiples of 4, and 24 is a multiple of 8. -/
theorem per_element_alignment_witness :
    (∃ rng, smallUbo.flushElement 1 1 = Outcome.ok rng ∧
      rng.offset = intAdd (intMul 1 smallUbo.regionSize) (intMul smallUbo.alignmentPerInstance 1) ∧
      rng.size = smallUbo.alignmentPerInstance ∧
      (smallUbo.srcDevice.nonCoherentAtomSize : Int) ∣ rng.offset ∧
      (smallUbo.srcDevice.nonCoherentAtomSize : Int) ∣ rng.size) ∧
    smallUbo.flushElement 1 1 = Outcome.ok ⟨8, 24⟩ :=
  ⟨(per_element_alignment smallUbo 2 3 (by decide) (by decide) (by decide) (by decide)
      smallUbo_constructed.1 1 1 (by decide) (by decide)).2.1 (by decide),
   by decide⟩

end src3
